import Mathlib

/-!
Verification development for the hh.ru auto-apply bot (`hh_auto_apply.py`).

The Python program drives a browser (the Page Interaction Layer) through a
login -> search -> paginate -> per-listing apply workflow.  We give a shallow
embedding of its core: the string utilities it uses, the search-URL builder
(`_build_search_url`), the result-page link collector (`_get_vacancy_links`),
the per-listing processor (`_apply_to_vacancy`) and the orchestrator (`run`).

Browser, site and operating-system behaviour (which element is present, where
a navigation lands, which call raises an exception) is modelled by an explicit
environment (`ApplyEnv`, `RunEnv`); the bot's own mutable state (current URL,
counters, the dedup ledger, and a ghost trace of navigation calls) is the
`BotState` record threaded through the functions.
-/

namespace HH

/-! ## String helpers (Python `str` operations used by the source) -/

/-- `charsStartWith hay pat` is Python's `hay.startswith(pat)` on char lists. -/
def charsStartWith : List Char → List Char → Bool
  | _, [] => true
  | [], _ :: _ => false
  | h :: hs, p :: ps => (h == p) && charsStartWith hs ps

/-- `charsContain hay pat` is Python's `pat in hay` (substring test) on char lists. -/
def charsContain : List Char → List Char → Bool
  | [], pat => charsStartWith [] pat
  | h :: t, pat => charsStartWith (h :: t) pat || charsContain t pat

/-- Python's `pat in s` for strings. -/
def strContains (s pat : String) : Bool :=
  charsContain s.data pat.data

/-- Python's `s.startswith(pat)` for strings. -/
def strStartsWith (s pat : String) : Bool :=
  charsStartWith s.data pat.data

/-- Python's `s.split(sep)` for a one-character separator: always returns a
nonempty list of groups; `"".split(sep) == [""]`. -/
def pySplit (sep : Char) : List Char → List (List Char)
  | [] => [[]]
  | c :: rest =>
    if c = sep then [] :: pySplit sep rest
    else
      match pySplit sep rest with
      | [] => [[c]]
      | g :: gs => (c :: g) :: gs

/-! ## Data model -/

/-- The tri-state outcome of processing one listing.  The Python function
returns `True` exactly on `applied`; `skipped` and `errored` are the branches
that bump `skipped_count` resp. `error_count` and return `False`. -/
inductive Outcome where
  | applied
  | skipped
  | errored
deriving DecidableEq, Repr

/-- The bot's mutable state: the browser's current location, the in-memory
dedup set `applied_vacancies`, the append-only ledger file
`applied_vacancies.txt` (as its list of appended lines), the three run
counters, and a ghost trace of every `driver.get` call issued. -/
structure BotState where
  currentUrl : String
  appliedVacancies : List String
  ledgerFile : List String
  appliedCount : Nat
  skippedCount : Nat
  errorCount : Nat
  navTrace : List String
deriving Repr

/-- `_save_applied_vacancy`: add to the in-memory set and append one line to
the ledger file (the file append is unconditional in the source). -/
def saveAppliedVacancy (vid : String) (s : BotState) : BotState :=
  { s with
    appliedVacancies :=
      if vid ∈ s.appliedVacancies then s.appliedVacancies
      else s.appliedVacancies ++ [vid]
    ledgerFile := s.ledgerFile ++ [vid] }

/-- `self.skipped_count += 1` -/
def incSkipped (s : BotState) : BotState :=
  { s with skippedCount := s.skippedCount + 1 }

/-- `self.applied_count += 1` -/
def incApplied (s : BotState) : BotState :=
  { s with appliedCount := s.appliedCount + 1 }

/-- `self.error_count += 1` -/
def incError (s : BotState) : BotState :=
  { s with errorCount := s.errorCount + 1 }

/-- Record a `driver.get(u)` call in the ghost navigation trace. -/
def recordNav (u : String) (s : BotState) : BotState :=
  { s with navTrace := s.navTrace ++ [u] }

/-! ## Environment of one `_apply_to_vacancy` call

Each field abstracts one interaction with the browser/site that the source
performs, in source order.  A `...Raises` flag set means that the
corresponding call raises an exception (which the source's outer
`except Exception` handler catches). -/

structure ApplyEnv where
  /-- `driver.get u` raises (e.g. a page-load timeout). -/
  navRaises : String → Bool
  /-- the location `driver.current_url` reports after a successful `driver.get u`. -/
  urlAfterNav : String → String
  /-- the bounded wait over the apply-button selector candidates finds a clickable button. -/
  applyButtonFound : Bool
  /-- the "already applied" marker element is present (when the button was not found). -/
  alreadyAppliedMarker : Bool
  /-- the scroll-into-view script on the apply button raises. -/
  scrollRaises : Bool
  /-- `apply_button.click()` raises. -/
  clickRaises : Bool
  /-- the location reported after clicking the apply button. -/
  urlAfterClick : String
  /-- the cookie-banner block raises an exception that escapes it
  (anything other than the `NoSuchElementException` it swallows). -/
  cookiesRaises : Bool
  /-- the cover-letter textarea appears within the bounded wait. -/
  coverLetterFound : Bool
  /-- clearing/filling the cover-letter textarea raises. -/
  coverLetterRaises : Bool
  /-- the final submit button appears within the bounded wait. -/
  submitFound : Bool
  /-- scrolling to / clicking the submit button raises (both the direct and
  the scripted fallback click fail). -/
  submitClickRaises : Bool

/-- A successful `driver.get u`: the trace records the call and the browser
lands where the environment says navigation to `u` lands. -/
def landNav (env : ApplyEnv) (u : String) (s : BotState) : BotState :=
  { recordNav u s with currentUrl := env.urlAfterNav u }

/-- `driver.get u`: either raises (`Except.error`, trace still records the
attempt) or lands (`Except.ok`). -/
def driverGet (env : ApplyEnv) (u : String) (s : BotState) : Except BotState BotState :=
  if env.navRaises u = true then .error (recordNav u s) else .ok (landNav env u s)

/-- `vacancy_url.split('/')[-1].split('?')[0]` — the listing identifier the
source derives from a listing URL. -/
def vacancyId (url : String) : String :=
  String.mk ((pySplit '?' ((pySplit '/' url.data).getLastD [])).headD [])

/-- `'vacancy_response' in current_url or '/applicant/vacancy_response' in current_url` —
the check for the unsupported "response form" page variant. -/
def isResponseForm (u : String) : Bool :=
  strContains u "vacancy_response" || strContains u "/applicant/vacancy_response"

/-! ## Configuration -/

/-- `config['search_filters']`.  Absent keys are `none`; Python falsiness of
present values (empty string, zero, empty list) is modelled by the
`optStrTruthy` / `optNatTruthy` tests below. -/
structure SearchFilters where
  keywords : List String
  salaryMin : Option Nat
  area : Option String
  experience : Option String
  employment : Option String
  schedule : Option String

/-- The parts of `config.json` the core reads. -/
structure Config where
  skipAlreadyApplied : Bool
  coverLetter : String
  maxApplicationsPerDay : Nat
  delayBetweenApplications : Nat
  filters : SearchFilters

/-- Python truthiness of an optional string (`None` and `""` are falsy). -/
def optStrTruthy : Option String → Bool
  | none => false
  | some s => !(s == "")

/-- Python truthiness of an optional integer (`None` and `0` are falsy). -/
def optNatTruthy : Option Nat → Bool
  | none => false
  | some n => !(n == 0)

/-! ## `_apply_to_vacancy` -/

/-- The unconditional "return to the search page" step that ends every
non-skip branch of `_apply_to_vacancy`: `driver.get(search_page_url)` and
then return the branch's outcome; if the navigation raises, the exception
escapes to the function's outer handler. -/
def navigateBackThen (o : Outcome) (env : ApplyEnv) (ret : String) (s : BotState) :
    Except BotState (Outcome × BotState) :=
  if env.navRaises ret = true then .error (recordNav ret s)
  else .ok (o, landNav env ret s)

/-- The browser state after clicking the apply button on the listing page:
the navigation to `vurl` happened earlier and the click may move the location
(to `env.urlAfterClick`). -/
def afterClick (env : ApplyEnv) (vurl : String) (s : BotState) : BotState :=
  { landNav env vurl s with currentUrl := env.urlAfterClick }

/-- The body of `_apply_to_vacancy`'s `try:` block (steps 1-10).
`Except.error s` means an exception escaped with state `s`, to be handled by
the outer `except Exception` handler in `applyToVacancy`.

Source correspondence, in order:
* dedup check against `applied_vacancies` (returns Skipped with no browser
  interaction at all);
* `driver.get(vacancy_url)` and the `vacancy_response` redirect check;
* the apply-button search; if absent, either the already-applied marker
  (save id, Skipped) or `error_count += 1` (Errored);
* scroll + click, the post-click `vacancy_response` re-check;
* cookie banner, cover letter;
* the final submit step: the found-and-clicked branch and the
  `TimeoutException` (not found) branch perform the same bookkeeping in the
  source (save id, `applied_count += 1`, navigate back, return `True`), so
  both are the final `navigateBackThen .applied` here and an exception from
  the submit click is the only distinct case. -/
def applyMain (cfg : Config) (env : ApplyEnv) (vurl ret : String) (s : BotState) :
    Except BotState (Outcome × BotState) :=
  if cfg.skipAlreadyApplied = true ∧ vacancyId vurl ∈ s.appliedVacancies then
    .ok (.skipped, incSkipped s)
  else if env.navRaises vurl = true then
    .error (recordNav vurl s)
  else if isResponseForm (env.urlAfterNav vurl) = true then
    navigateBackThen .skipped env ret (incSkipped (landNav env vurl s))
  else if env.applyButtonFound = false then
    if env.alreadyAppliedMarker = true then
      navigateBackThen .skipped env ret
        (incSkipped (saveAppliedVacancy (vacancyId vurl) (landNav env vurl s)))
    else
      navigateBackThen .errored env ret (incError (landNav env vurl s))
  else if env.scrollRaises = true then
    .error (landNav env vurl s)
  else if env.clickRaises = true then
    .error (landNav env vurl s)
  else if isResponseForm env.urlAfterClick = true then
    navigateBackThen .skipped env ret (incSkipped (afterClick env vurl s))
  else if env.cookiesRaises = true then
    .error (afterClick env vurl s)
  else if env.coverLetterFound = true ∧ env.coverLetterRaises = true then
    .error (afterClick env vurl s)
  else if env.submitFound = true ∧ env.submitClickRaises = true then
    .error (afterClick env vurl s)
  else
    navigateBackThen .applied env ret
      (incApplied (saveAppliedVacancy (vacancyId vurl) (afterClick env vurl s)))

/-- `search_page_url = search_page_url or self.driver.current_url`:
a missing or empty (falsy) argument is replaced by the current location. -/
def effectiveReturnUrl (retArg : Option String) (s : BotState) : String :=
  match retArg with
  | none => s.currentUrl
  | some r => if r = "" then s.currentUrl else r

/-- The state update of `_apply_to_vacancy`'s outer `except Exception`
handler: `error_count += 1`, then one more `driver.get(search_page_url)`
attempt whose own exception, if any, is swallowed (`except: pass`). -/
def handlerState (env : ApplyEnv) (ret : String) (t : BotState) : BotState :=
  if env.navRaises ret = true then recordNav ret (incError t)
  else landNav env ret (incError t)

/-- `_apply_to_vacancy(vacancy_url, search_page_url)`.  An exception escaping
the `try:` body lands in the outer handler (`handlerState`) and the function
returns `False` (outcome `errored`). -/
def applyToVacancy (cfg : Config) (env : ApplyEnv) (vurl : String)
    (retArg : Option String) (s : BotState) : Outcome × BotState :=
  match applyMain cfg env vurl (effectiveReturnUrl retArg s) s with
  | .ok r => r
  | .error s₁ => (.errored, handlerState env (effectiveReturnUrl retArg s) s₁)

/-- The combined effect, on a branch that ends with the return navigation, of
that navigation plus (when it raises) the outer handler: navigation succeeds
and the branch's own outcome `o` stands, or it raises and the handler turns
the call into `errored` with a second navigation attempt recorded. -/
def returnNav (o : Outcome) (env : ApplyEnv) (ret : String) (m : BotState) :
    Outcome × BotState :=
  if env.navRaises ret = true then
    (.errored, recordNav ret (incError (recordNav ret m)))
  else (o, landNav env ret m)

/-! ## `_build_search_url` -/

/-- UTF-8 bytes of a character, from its code point (pure arithmetic). -/
def utf8Bytes (c : Char) : List Nat :=
  let n := c.toNat
  if n < 128 then [n]
  else if n < 2048 then [192 + n / 64, 128 + n % 64]
  else if n < 65536 then [224 + n / 4096, 128 + (n / 64) % 64, 128 + n % 64]
  else [240 + n / 262144, 128 + (n / 4096) % 64, 128 + (n / 64) % 64, 128 + n % 64]

/-- Uppercase hexadecimal digit, as used by `urllib.parse.quote`. -/
def hexDigit (n : Nat) : Char :=
  if n < 10 then Char.ofNat (48 + n) else Char.ofNat (55 + n)

/-- Characters `urllib.parse.quote_plus` leaves unescaped
(letters, digits, `_ . - ~`). -/
def isSafeChar (c : Char) : Bool :=
  (65 ≤ c.toNat && c.toNat ≤ 90) || (97 ≤ c.toNat && c.toNat ≤ 122) ||
  (48 ≤ c.toNat && c.toNat ≤ 57) ||
  c == '_' || c == '.' || c == '-' || c == '~'

/-- `urllib.parse.quote_plus` on one character: safe characters pass through,
space becomes `+`, everything else becomes `%XX` per UTF-8 byte. -/
def quotePlusChar (c : Char) : String :=
  if isSafeChar c then String.singleton c
  else if c == ' ' then "+"
  else String.join ((utf8Bytes c).map (fun b => String.mk ['%', hexDigit (b / 16), hexDigit (b % 16)]))

/-- `urllib.parse.quote_plus` on a string. -/
def quotePlus (s : String) : String :=
  String.join (s.data.map quotePlusChar)

/-- `urllib.parse.urlencode` on an ordered parameter list. -/
def urlencode (ps : List (String × String)) : String :=
  String.intercalate "&" (ps.map (fun p => quotePlus p.1 ++ "=" ++ quotePlus p.2))

/-- `area_map.get(filters['area'], "1")` over `{"Москва": "1", "Санкт-Петербург": "2"}`:
unknown region values fall back to the fixed code `"1"`. -/
def areaMap (a : String) : String :=
  if a == "Москва" then "1" else if a == "Санкт-Петербург" then "2" else "1"

/-- `exp_map.get(filters['experience'], "")`: unknown values map to `""`. -/
def expMap (e : String) : String :=
  if e == "noExperience" then "noExperience"
  else if e == "between1And3" then "between1And3"
  else if e == "between3And6" then "between3And6"
  else if e == "moreThan6" then "moreThan6"
  else ""

/-- `employment_map.get(filters['employment'], "")`. -/
def employmentMap (e : String) : String :=
  if e == "full" then "full"
  else if e == "part" then "part"
  else if e == "project" then "project"
  else if e == "volunteer" then "volunteer"
  else if e == "probation" then "probation"
  else ""

/-- `schedule_map.get(filters['schedule'], "")`. -/
def scheduleMap (e : String) : String :=
  if e == "fullDay" then "fullDay"
  else if e == "shift" then "shift"
  else if e == "flexible" then "flexible"
  else if e == "remote" then "remote"
  else if e == "flyInFlyOut" then "flyInFlyOut"
  else ""

/-- The `text` entry of `params_dict`: the explicit keyword argument when
truthy, else the first configured keyword when the keyword list is truthy,
else nothing. -/
def textPart (filters : SearchFilters) (keyword : Option String) : List (String × String) :=
  if optStrTruthy keyword then [("text", keyword.getD "")]
  else if !filters.keywords.isEmpty then [("text", filters.keywords.headD "")]
  else []

/-- The `salary` entry: present only when `salary_min` is truthy. -/
def salaryPart (filters : SearchFilters) : List (String × String) :=
  if optNatTruthy filters.salaryMin then [("salary", toString (filters.salaryMin.getD 0))]
  else []

/-- The `area` entry: present only when `area` is truthy; its value goes
through `areaMap` (unknown values fall back to `"1"`). -/
def areaPart (filters : SearchFilters) : List (String × String) :=
  if optStrTruthy filters.area then [("area", areaMap (filters.area.getD ""))]
  else []

/-- The `experience` entry: present only when `experience` is truthy AND maps
to a known value (unknown values yield `""` and are dropped). -/
def expPart (filters : SearchFilters) : List (String × String) :=
  if optStrTruthy filters.experience then
    if !(expMap (filters.experience.getD "") == "") then
      [("experience", expMap (filters.experience.getD ""))]
    else []
  else []

/-- The `employment` entry, analogous to `expPart`. -/
def empPart (filters : SearchFilters) : List (String × String) :=
  if optStrTruthy filters.employment then
    if !(employmentMap (filters.employment.getD "") == "") then
      [("employment", employmentMap (filters.employment.getD ""))]
    else []
  else []

/-- The `schedule` entry, analogous to `expPart`. -/
def schedPart (filters : SearchFilters) : List (String × String) :=
  if optStrTruthy filters.schedule then
    if !(scheduleMap (filters.schedule.getD "") == "") then
      [("schedule", scheduleMap (filters.schedule.getD ""))]
    else []
  else []

/-- The ordered `params_dict` built by `_build_search_url` (Python dicts keep
insertion order: text, salary, area, experience, employment, schedule). -/
def buildSearchParams (filters : SearchFilters) (keyword : Option String) :
    List (String × String) :=
  textPart filters keyword ++ salaryPart filters ++ areaPart filters ++
    expPart filters ++ empPart filters ++ schedPart filters

/-- `_build_search_url(keyword)`: `f"{base_url}?{urlencode(params_dict, doseq=True)}"`. -/
def buildSearchUrl (filters : SearchFilters) (keyword : Option String) : String :=
  "https://hh.ru/search/vacancy" ++ "?" ++ urlencode (buildSearchParams filters keyword)

/-! ## `_get_vacancy_links` -/

/-- Per-card processing of one href in `_get_vacancy_links`:
`if link:` (skip falsy), resolve a relative `/vacancy/...` path against
`https://hh.ru`, keep it only if it contains `/vacancy/`, and strip the query
string (`link.split('?')[0]`). -/
def normalizeHref (link : String) : Option String :=
  if link = "" then none
  else
    let link₁ := if strStartsWith link "/vacancy/" then "https://hh.ru" ++ link else link
    if strContains link₁ "/vacancy/" then
      some (String.mk ((pySplit '?' link₁.data).headD []))
    else none

/-- The dedup loop of `_get_vacancy_links`: `seen_links` is the set of clean
links already emitted; each new clean link is appended in first-seen order. -/
def collectLinks (seen : List String) : List (Option String) → List String
  | [] => []
  | h :: rest =>
    match h with
    | none => collectLinks seen rest
    | some l =>
      match normalizeHref l with
      | none => collectLinks seen rest
      | some clean =>
        if clean ∈ seen then collectLinks seen rest
        else clean :: collectLinks (clean :: seen) rest

/-- `_get_vacancy_links`, as a function of the hrefs of the cards found on the
current result page (`None` models a card with no `href` attribute).  A page
with no cards yields `[]`, and the source's outer exception handler also
returns `[]` rather than raising. -/
def getVacancyLinks (hrefs : List (Option String)) : List String :=
  collectLinks [] hrefs

/-! ## The orchestrator `run` -/

/-- Environment of one whole run. -/
structure RunEnv where
  /-- drives the `driver.get(search_url)` navigations issued by `run` itself. -/
  topEnv : ApplyEnv
  /-- the environment each `_apply_to_vacancy(url, ...)` call runs in. -/
  applyEnv : String → ApplyEnv
  /-- hrefs of the result cards on page `p` of keyword number `k` (0-based `k`,
      1-based `p`), as consumed by `_get_vacancy_links`. -/
  pageHrefs : Nat → Nat → List (Option String)
  /-- outcome of the next-page step: `none` when the pager link is absent,
      disabled, or any lookup/click raises (all treated as "no next page");
      `some u` when the click succeeds and the browser lands on `u`. -/
  nextPageResult : Nat → Nat → Option String
  /-- `_login()` succeeded. -/
  loginOk : Bool

/-- Accumulator of the orchestrator loops: the quota counter
`applications_today`, the bot state, and the ghost list of per-listing
outcomes in processing order. -/
structure RunAcc where
  today : Nat
  st : BotState
  attempts : List Outcome

/-- The inner `for vacancy_url in vacancy_links:` loop of `run`: stop when
the daily quota is reached, otherwise call `_apply_to_vacancy` and increment
`applications_today` exactly when it returned `True` (outcome Applied). -/
def processListings (cfg : Config) (renv : RunEnv) (curSearch : String) :
    List String → RunAcc → RunAcc
  | [], acc => acc
  | url :: rest, acc =>
    if cfg.maxApplicationsPerDay ≤ acc.today then acc
    else
      let r := applyToVacancy cfg (renv.applyEnv url) url (some curSearch) acc.st
      let today₁ := if r.1 = .applied then acc.today + 1 else acc.today
      processListings cfg renv curSearch rest
        { today := today₁, st := r.2, attempts := acc.attempts ++ [r.1] }

/-- The `while applications_today < max_applications:` page loop for one
keyword.  `fuel` bounds the number of iterations of the shallow embedding
(the theorems hold for every fuel); an empty link list or a failed next-page
step breaks to the next keyword; reaching the quota stops. -/
def pageLoop (cfg : Config) (renv : RunEnv) (kIdx : Nat) :
    Nat → Nat → RunAcc → RunAcc
  | 0, _, acc => acc
  | fuel + 1, page, acc =>
    if cfg.maxApplicationsPerDay ≤ acc.today then acc
    else
      let page₁ := page + 1
      let links := getVacancyLinks (renv.pageHrefs kIdx page₁)
      if links = [] then acc
      else
        let curSearch := acc.st.currentUrl
        let acc₁ := processListings cfg renv curSearch links acc
        if cfg.maxApplicationsPerDay ≤ acc₁.today then acc₁
        else
          match renv.nextPageResult kIdx page₁ with
          | none => acc₁
          | some u =>
            pageLoop cfg renv kIdx fuel page₁
              { acc₁ with st := { acc₁.st with currentUrl := u } }

/-- The outer `for keyword in keywords:` loop.  The `driver.get(search_url)`
at the top of each keyword iteration is the one navigation `run` performs
outside any local handler: if it raises, the top-level `except Exception`
aborts the whole run. -/
def keywordLoop (cfg : Config) (renv : RunEnv) (fuel : Nat) :
    List String → Nat → RunAcc → RunAcc
  | [], _, acc => acc
  | kw :: rest, kIdx, acc =>
    if cfg.maxApplicationsPerDay ≤ acc.today then acc
    else
      let searchUrl := buildSearchUrl cfg.filters (some kw)
      match driverGet renv.topEnv searchUrl acc.st with
      | .error s₁ => { acc with st := s₁ }
      | .ok s₁ =>
        let acc₁ := pageLoop cfg renv kIdx fuel 0 { acc with st := s₁ }
        keywordLoop cfg renv fuel rest (kIdx + 1) acc₁

/-- `run()`: after setup and login, iterate keywords against the daily quota.
A failed login or an empty keyword list ends the run before any listing is
processed. -/
def run (cfg : Config) (renv : RunEnv) (fuel : Nat) (s : BotState) : RunAcc :=
  if renv.loginOk = false then { today := 0, st := s, attempts := [] }
  else if cfg.filters.keywords = [] then { today := 0, st := s, attempts := [] }
  else keywordLoop cfg renv fuel cfg.filters.keywords 0 { today := 0, st := s, attempts := [] }

/-! ## Spec-side definitions

These follow the specification's words, to be compared with the definitions
translated from the source. -/

/-- The characters after the last `/` of a URL (the last path segment). -/
def lastPathSegment (url : String) : String :=
  String.mk ((url.data.reverse.takeWhile (fun c => !(c == '/'))).reverse)

/-- The characters before the first `?` (the URL stripped of its query). -/
def stripQuerySuffix (s : String) : String :=
  String.mk (s.data.takeWhile (fun c => !(c == '?')))

/-- Spec's ListingIdentifier: "the last path segment of a listing URL
stripped of query parameters". -/
def specListingIdentifier (url : String) : String :=
  stripQuerySuffix (lastPathSegment url)

/-- First-seen-order deduplication, the spec's description of
`listListingURLs`: keep the first occurrence of each element, drop the rest. -/
def firstSeen : List String → List String
  | [] => []
  | x :: xs => x :: firstSeen (xs.filter (fun y => !(y == x)))
termination_by l => l.length
decreasing_by
  simp only [List.length_cons]
  exact Nat.lt_succ_of_le (List.length_filter_le _ _)

/-- The stream of normalized listing URLs of a page, before deduplication. -/
def normalizedStream (hrefs : List (Option String)) : List String :=
  hrefs.filterMap (fun h => h.bind normalizeHref)

/-! ## Predicates used by the theorems -/

/-- The sum of the three run counters. -/
def counterSum (s : BotState) : Nat :=
  s.appliedCount + s.skippedCount + s.errorCount

/-- "The call incremented exactly one of the three counters by exactly one":
each counter is monotone, grows by at most one, and the total grows by
exactly one. -/
def exactlyOneIncrement (s t : BotState) : Prop :=
  s.appliedCount ≤ t.appliedCount ∧ t.appliedCount ≤ s.appliedCount + 1 ∧
  s.skippedCount ≤ t.skippedCount ∧ t.skippedCount ≤ s.skippedCount + 1 ∧
  s.errorCount ≤ t.errorCount ∧ t.errorCount ≤ s.errorCount + 1 ∧
  counterSum t = counterSum s + 1

instance (s t : BotState) : Decidable (exactlyOneIncrement s t) := by
  unfold exactlyOneIncrement; infer_instance

/-- An environment in which a `_apply_to_vacancy` call runs to a clean,
successful application: no interaction raises, no response-form redirect
happens, and the apply button is found. -/
def happyEnv (env : ApplyEnv) (vurl ret : String) : Prop :=
  env.navRaises vurl = false ∧
  env.navRaises ret = false ∧
  isResponseForm (env.urlAfterNav vurl) = false ∧
  env.applyButtonFound = true ∧
  env.scrollRaises = false ∧
  env.clickRaises = false ∧
  isResponseForm env.urlAfterClick = false ∧
  env.cookiesRaises = false ∧
  (env.coverLetterFound = false ∨ env.coverLetterRaises = false) ∧
  (env.submitFound = false ∨ env.submitClickRaises = false)

instance (env : ApplyEnv) (vurl ret : String) : Decidable (happyEnv env vurl ret) := by
  unfold happyEnv; infer_instance

/-- Iterate `_apply_to_vacancy` on the same listing `n` times, threading the
state (used to express "every later call"). -/
def applyIter (cfg : Config) (env : ApplyEnv) (vurl : String) (retArg : Option String) :
    Nat → BotState → BotState
  | 0, s => s
  | n + 1, s =>
    (applyToVacancy cfg env vurl retArg (applyIter cfg env vurl retArg n s)).2

/-! ## Concrete inputs for witnesses and counterexamples -/

/-- A fresh bot state on the search page `"S"`. -/
def exState : BotState :=
  { currentUrl := "S", appliedVacancies := [], ledgerFile := [],
    appliedCount := 0, skippedCount := 0, errorCount := 0, navTrace := [] }

/-- Filters with every optional field unset and one keyword. -/
def exFilters : SearchFilters :=
  { keywords := ["python"], salaryMin := none, area := none,
    experience := none, employment := none, schedule := none }

/-- A configuration with the skip-already-applied option on and a daily cap
of 1. -/
def exCfg : Config :=
  { skipAlreadyApplied := true, coverLetter := "hi",
    maxApplicationsPerDay := 1, delayBetweenApplications := 0,
    filters := exFilters }

/-- An environment in which every interaction succeeds: navigation lands
where it is told, the apply button and submit button are found. -/
def exHappyEnv : ApplyEnv :=
  { navRaises := fun _ => false, urlAfterNav := fun u => u,
    applyButtonFound := true, alreadyAppliedMarker := false,
    scrollRaises := false, clickRaises := false,
    urlAfterClick := "https://hh.ru/vacancy/123", cookiesRaises := false,
    coverLetterFound := true, coverLetterRaises := false,
    submitFound := true, submitClickRaises := false }

/-- Like `exHappyEnv`, but navigating to the search page `"S"` raises
(e.g. a page-load timeout on the way back). -/
def exRetRaisesEnv : ApplyEnv :=
  { exHappyEnv with navRaises := fun u => u == "S" }

/-- Like `exHappyEnv`, but the apply button is missing and no already-applied
marker is present, so the attempt is Errored. -/
def exErrorEnv : ApplyEnv :=
  { exHappyEnv with applyButtonFound := false, alreadyAppliedMarker := false }

/-- A state currently sitting on page `"A"` (not the search page) whose
ledger already contains the identifier `"123"`. -/
def exStateA : BotState :=
  { currentUrl := "A", appliedVacancies := ["123"], ledgerFile := ["123"],
    appliedCount := 0, skippedCount := 0, errorCount := 0, navTrace := [] }

/-- A run environment with one result page of two listings whose apply
attempts both end Errored. -/
def exErrRunEnv : RunEnv :=
  { topEnv := exHappyEnv,
    applyEnv := fun _ => exErrorEnv,
    pageHrefs := fun k p =>
      if k = 0 ∧ p = 1 then
        [some "https://hh.ru/vacancy/101", some "https://hh.ru/vacancy/102"]
      else [],
    nextPageResult := fun _ _ => none,
    loginOk := true }

/-- Like `exHappyEnv`, but the final submit button is not found within the
bounded wait (the `TimeoutException` branch of the submit step). -/
def exNoSubmitEnv : ApplyEnv :=
  { exHappyEnv with submitFound := false }

/-- Filters with a set-but-unknown region and a set-but-unknown experience
bracket. -/
def exUnknownFilters : SearchFilters :=
  { keywords := ["python"], salaryMin := none, area := some "Казань",
    experience := some "junior", employment := none, schedule := none }

/-! # Theorems -/

/-! ## Branch lemmas for `_apply_to_vacancy`

One lemma per branch of `applyMain`, each hypothesising exactly the
conditions along its path, plus lifting lemmas to `applyToVacancy`. -/

theorem applyMain_skip (cfg : Config) (env : ApplyEnv) (vurl ret : String) (s : BotState)
    (h1 : cfg.skipAlreadyApplied = true ∧ vacancyId vurl ∈ s.appliedVacancies) :
    applyMain cfg env vurl ret s = .ok (.skipped, incSkipped s) := by
  unfold applyMain; rw [if_pos h1]

theorem applyMain_navRaise (cfg : Config) (env : ApplyEnv) (vurl ret : String) (s : BotState)
    (h1 : ¬(cfg.skipAlreadyApplied = true ∧ vacancyId vurl ∈ s.appliedVacancies))
    (h2 : env.navRaises vurl = true) :
    applyMain cfg env vurl ret s = .error (recordNav vurl s) := by
  unfold applyMain; rw [if_neg h1, if_pos h2]

theorem applyMain_respForm (cfg : Config) (env : ApplyEnv) (vurl ret : String) (s : BotState)
    (h1 : ¬(cfg.skipAlreadyApplied = true ∧ vacancyId vurl ∈ s.appliedVacancies))
    (h2 : ¬(env.navRaises vurl = true))
    (h3 : isResponseForm (env.urlAfterNav vurl) = true) :
    applyMain cfg env vurl ret s
      = navigateBackThen .skipped env ret (incSkipped (landNav env vurl s)) := by
  unfold applyMain; rw [if_neg h1, if_neg h2, if_pos h3]

theorem applyMain_marker (cfg : Config) (env : ApplyEnv) (vurl ret : String) (s : BotState)
    (h1 : ¬(cfg.skipAlreadyApplied = true ∧ vacancyId vurl ∈ s.appliedVacancies))
    (h2 : ¬(env.navRaises vurl = true))
    (h3 : ¬(isResponseForm (env.urlAfterNav vurl) = true))
    (h4 : env.applyButtonFound = false)
    (h5 : env.alreadyAppliedMarker = true) :
    applyMain cfg env vurl ret s
      = navigateBackThen .skipped env ret
          (incSkipped (saveAppliedVacancy (vacancyId vurl) (landNav env vurl s))) := by
  unfold applyMain; rw [if_neg h1, if_neg h2, if_neg h3, if_pos h4, if_pos h5]

theorem applyMain_noButton (cfg : Config) (env : ApplyEnv) (vurl ret : String) (s : BotState)
    (h1 : ¬(cfg.skipAlreadyApplied = true ∧ vacancyId vurl ∈ s.appliedVacancies))
    (h2 : ¬(env.navRaises vurl = true))
    (h3 : ¬(isResponseForm (env.urlAfterNav vurl) = true))
    (h4 : env.applyButtonFound = false)
    (h5 : ¬(env.alreadyAppliedMarker = true)) :
    applyMain cfg env vurl ret s
      = navigateBackThen .errored env ret (incError (landNav env vurl s)) := by
  unfold applyMain; rw [if_neg h1, if_neg h2, if_neg h3, if_pos h4, if_neg h5]

theorem applyMain_scrollRaise (cfg : Config) (env : ApplyEnv) (vurl ret : String) (s : BotState)
    (h1 : ¬(cfg.skipAlreadyApplied = true ∧ vacancyId vurl ∈ s.appliedVacancies))
    (h2 : ¬(env.navRaises vurl = true))
    (h3 : ¬(isResponseForm (env.urlAfterNav vurl) = true))
    (h4 : ¬(env.applyButtonFound = false))
    (h5 : env.scrollRaises = true) :
    applyMain cfg env vurl ret s = .error (landNav env vurl s) := by
  unfold applyMain; rw [if_neg h1, if_neg h2, if_neg h3, if_neg h4, if_pos h5]

theorem applyMain_clickRaise (cfg : Config) (env : ApplyEnv) (vurl ret : String) (s : BotState)
    (h1 : ¬(cfg.skipAlreadyApplied = true ∧ vacancyId vurl ∈ s.appliedVacancies))
    (h2 : ¬(env.navRaises vurl = true))
    (h3 : ¬(isResponseForm (env.urlAfterNav vurl) = true))
    (h4 : ¬(env.applyButtonFound = false))
    (h5 : ¬(env.scrollRaises = true))
    (h6 : env.clickRaises = true) :
    applyMain cfg env vurl ret s = .error (landNav env vurl s) := by
  unfold applyMain; rw [if_neg h1, if_neg h2, if_neg h3, if_neg h4, if_neg h5, if_pos h6]

theorem applyMain_respForm2 (cfg : Config) (env : ApplyEnv) (vurl ret : String) (s : BotState)
    (h1 : ¬(cfg.skipAlreadyApplied = true ∧ vacancyId vurl ∈ s.appliedVacancies))
    (h2 : ¬(env.navRaises vurl = true))
    (h3 : ¬(isResponseForm (env.urlAfterNav vurl) = true))
    (h4 : ¬(env.applyButtonFound = false))
    (h5 : ¬(env.scrollRaises = true))
    (h6 : ¬(env.clickRaises = true))
    (h7 : isResponseForm env.urlAfterClick = true) :
    applyMain cfg env vurl ret s
      = navigateBackThen .skipped env ret (incSkipped (afterClick env vurl s)) := by
  unfold applyMain; rw [if_neg h1, if_neg h2, if_neg h3, if_neg h4, if_neg h5, if_neg h6,
    if_pos h7]

theorem applyMain_cookiesRaise (cfg : Config) (env : ApplyEnv) (vurl ret : String) (s : BotState)
    (h1 : ¬(cfg.skipAlreadyApplied = true ∧ vacancyId vurl ∈ s.appliedVacancies))
    (h2 : ¬(env.navRaises vurl = true))
    (h3 : ¬(isResponseForm (env.urlAfterNav vurl) = true))
    (h4 : ¬(env.applyButtonFound = false))
    (h5 : ¬(env.scrollRaises = true))
    (h6 : ¬(env.clickRaises = true))
    (h7 : ¬(isResponseForm env.urlAfterClick = true))
    (h8 : env.cookiesRaises = true) :
    applyMain cfg env vurl ret s = .error (afterClick env vurl s) := by
  unfold applyMain; rw [if_neg h1, if_neg h2, if_neg h3, if_neg h4, if_neg h5, if_neg h6,
    if_neg h7, if_pos h8]

theorem applyMain_coverRaise (cfg : Config) (env : ApplyEnv) (vurl ret : String) (s : BotState)
    (h1 : ¬(cfg.skipAlreadyApplied = true ∧ vacancyId vurl ∈ s.appliedVacancies))
    (h2 : ¬(env.navRaises vurl = true))
    (h3 : ¬(isResponseForm (env.urlAfterNav vurl) = true))
    (h4 : ¬(env.applyButtonFound = false))
    (h5 : ¬(env.scrollRaises = true))
    (h6 : ¬(env.clickRaises = true))
    (h7 : ¬(isResponseForm env.urlAfterClick = true))
    (h8 : ¬(env.cookiesRaises = true))
    (h9 : env.coverLetterFound = true ∧ env.coverLetterRaises = true) :
    applyMain cfg env vurl ret s = .error (afterClick env vurl s) := by
  unfold applyMain; rw [if_neg h1, if_neg h2, if_neg h3, if_neg h4, if_neg h5, if_neg h6,
    if_neg h7, if_neg h8, if_pos h9]

theorem applyMain_submitRaise (cfg : Config) (env : ApplyEnv) (vurl ret : String) (s : BotState)
    (h1 : ¬(cfg.skipAlreadyApplied = true ∧ vacancyId vurl ∈ s.appliedVacancies))
    (h2 : ¬(env.navRaises vurl = true))
    (h3 : ¬(isResponseForm (env.urlAfterNav vurl) = true))
    (h4 : ¬(env.applyButtonFound = false))
    (h5 : ¬(env.scrollRaises = true))
    (h6 : ¬(env.clickRaises = true))
    (h7 : ¬(isResponseForm env.urlAfterClick = true))
    (h8 : ¬(env.cookiesRaises = true))
    (h9 : ¬(env.coverLetterFound = true ∧ env.coverLetterRaises = true))
    (h10 : env.submitFound = true ∧ env.submitClickRaises = true) :
    applyMain cfg env vurl ret s = .error (afterClick env vurl s) := by
  unfold applyMain; rw [if_neg h1, if_neg h2, if_neg h3, if_neg h4, if_neg h5, if_neg h6,
    if_neg h7, if_neg h8, if_neg h9, if_pos h10]

theorem applyMain_success (cfg : Config) (env : ApplyEnv) (vurl ret : String) (s : BotState)
    (h1 : ¬(cfg.skipAlreadyApplied = true ∧ vacancyId vurl ∈ s.appliedVacancies))
    (h2 : ¬(env.navRaises vurl = true))
    (h3 : ¬(isResponseForm (env.urlAfterNav vurl) = true))
    (h4 : ¬(env.applyButtonFound = false))
    (h5 : ¬(env.scrollRaises = true))
    (h6 : ¬(env.clickRaises = true))
    (h7 : ¬(isResponseForm env.urlAfterClick = true))
    (h8 : ¬(env.cookiesRaises = true))
    (h9 : ¬(env.coverLetterFound = true ∧ env.coverLetterRaises = true))
    (h10 : ¬(env.submitFound = true ∧ env.submitClickRaises = true)) :
    applyMain cfg env vurl ret s
      = navigateBackThen .applied env ret
          (incApplied (saveAppliedVacancy (vacancyId vurl) (afterClick env vurl s))) := by
  unfold applyMain; rw [if_neg h1, if_neg h2, if_neg h3, if_neg h4, if_neg h5, if_neg h6,
    if_neg h7, if_neg h8, if_neg h9, if_neg h10]

theorem applyToVacancy_of_ok (cfg : Config) (env : ApplyEnv) (vurl : String)
    (retArg : Option String) (s : BotState) (o : Outcome) (t : BotState)
    (h : applyMain cfg env vurl (effectiveReturnUrl retArg s) s = .ok (o, t)) :
    applyToVacancy cfg env vurl retArg s = (o, t) := by
  unfold applyToVacancy; rw [h]

theorem applyToVacancy_of_error (cfg : Config) (env : ApplyEnv) (vurl : String)
    (retArg : Option String) (s : BotState) (t : BotState)
    (h : applyMain cfg env vurl (effectiveReturnUrl retArg s) s = .error t) :
    applyToVacancy cfg env vurl retArg s
      = (.errored, handlerState env (effectiveReturnUrl retArg s) t) := by
  unfold applyToVacancy; rw [h]

theorem applyToVacancy_of_navBack (cfg : Config) (env : ApplyEnv) (vurl : String)
    (retArg : Option String) (s : BotState) (o : Outcome) (m : BotState)
    (h : applyMain cfg env vurl (effectiveReturnUrl retArg s) s
          = navigateBackThen o env (effectiveReturnUrl retArg s) m) :
    applyToVacancy cfg env vurl retArg s
      = returnNav o env (effectiveReturnUrl retArg s) m := by
  by_cases hR : env.navRaises (effectiveReturnUrl retArg s) = true
  · unfold navigateBackThen at h; rw [if_pos hR] at h
    rw [applyToVacancy_of_error cfg env vurl retArg s _ h]
    unfold returnNav handlerState
    rw [if_pos hR, if_pos hR]
  · unfold navigateBackThen at h; rw [if_neg hR] at h
    rw [applyToVacancy_of_ok cfg env vurl retArg s o _ h]
    unfold returnNav
    rw [if_neg hR]

/-- Exhaustive shape analysis of `_apply_to_vacancy`: the result is one of
the nine possible branch results (dedup skip; five branches ending in the
return navigation; three exception states handed to the outer handler). -/
theorem applyToVacancy_shape (cfg : Config) (env : ApplyEnv) (vurl : String)
    (retArg : Option String) (s : BotState) :
    applyToVacancy cfg env vurl retArg s = (.skipped, incSkipped s) ∨
    applyToVacancy cfg env vurl retArg s
      = returnNav .skipped env (effectiveReturnUrl retArg s)
          (incSkipped (landNav env vurl s)) ∨
    applyToVacancy cfg env vurl retArg s
      = returnNav .skipped env (effectiveReturnUrl retArg s)
          (incSkipped (saveAppliedVacancy (vacancyId vurl) (landNav env vurl s))) ∨
    applyToVacancy cfg env vurl retArg s
      = returnNav .errored env (effectiveReturnUrl retArg s)
          (incError (landNav env vurl s)) ∨
    applyToVacancy cfg env vurl retArg s
      = returnNav .skipped env (effectiveReturnUrl retArg s)
          (incSkipped (afterClick env vurl s)) ∨
    applyToVacancy cfg env vurl retArg s
      = returnNav .applied env (effectiveReturnUrl retArg s)
          (incApplied (saveAppliedVacancy (vacancyId vurl) (afterClick env vurl s))) ∨
    applyToVacancy cfg env vurl retArg s
      = (.errored, handlerState env (effectiveReturnUrl retArg s) (recordNav vurl s)) ∨
    applyToVacancy cfg env vurl retArg s
      = (.errored, handlerState env (effectiveReturnUrl retArg s) (landNav env vurl s)) ∨
    applyToVacancy cfg env vurl retArg s
      = (.errored, handlerState env (effectiveReturnUrl retArg s) (afterClick env vurl s)) := by
  by_cases h1 : cfg.skipAlreadyApplied = true ∧ vacancyId vurl ∈ s.appliedVacancies
  · exact Or.inl (applyToVacancy_of_ok cfg env vurl retArg s _ _ (applyMain_skip _ _ _ _ _ h1))
  by_cases h2 : env.navRaises vurl = true
  · exact Or.inr (Or.inr (Or.inr (Or.inr (Or.inr (Or.inr (Or.inl
      (applyToVacancy_of_error cfg env vurl retArg s _
        (applyMain_navRaise _ _ _ _ _ h1 h2))))))))
  by_cases h3 : isResponseForm (env.urlAfterNav vurl) = true
  · exact Or.inr (Or.inl (applyToVacancy_of_navBack cfg env vurl retArg s _ _
      (applyMain_respForm _ _ _ _ _ h1 h2 h3)))
  by_cases h4 : env.applyButtonFound = false
  · by_cases h5 : env.alreadyAppliedMarker = true
    · exact Or.inr (Or.inr (Or.inl (applyToVacancy_of_navBack cfg env vurl retArg s _ _
        (applyMain_marker _ _ _ _ _ h1 h2 h3 h4 h5))))
    · exact Or.inr (Or.inr (Or.inr (Or.inl
        (applyToVacancy_of_navBack cfg env vurl retArg s _ _
          (applyMain_noButton _ _ _ _ _ h1 h2 h3 h4 h5)))))
  by_cases h5 : env.scrollRaises = true
  · exact Or.inr (Or.inr (Or.inr (Or.inr (Or.inr (Or.inr (Or.inr (Or.inl
      (applyToVacancy_of_error cfg env vurl retArg s _
        (applyMain_scrollRaise _ _ _ _ _ h1 h2 h3 h4 h5)))))))))
  by_cases h6 : env.clickRaises = true
  · exact Or.inr (Or.inr (Or.inr (Or.inr (Or.inr (Or.inr (Or.inr (Or.inl
      (applyToVacancy_of_error cfg env vurl retArg s _
        (applyMain_clickRaise _ _ _ _ _ h1 h2 h3 h4 h5 h6)))))))))
  by_cases h7 : isResponseForm env.urlAfterClick = true
  · exact Or.inr (Or.inr (Or.inr (Or.inr (Or.inl
      (applyToVacancy_of_navBack cfg env vurl retArg s _ _
        (applyMain_respForm2 _ _ _ _ _ h1 h2 h3 h4 h5 h6 h7))))))
  by_cases h8 : env.cookiesRaises = true
  · exact Or.inr (Or.inr (Or.inr (Or.inr (Or.inr (Or.inr (Or.inr (Or.inr
      (applyToVacancy_of_error cfg env vurl retArg s _
        (applyMain_cookiesRaise _ _ _ _ _ h1 h2 h3 h4 h5 h6 h7 h8)))))))))
  by_cases h9 : env.coverLetterFound = true ∧ env.coverLetterRaises = true
  · exact Or.inr (Or.inr (Or.inr (Or.inr (Or.inr (Or.inr (Or.inr (Or.inr
      (applyToVacancy_of_error cfg env vurl retArg s _
        (applyMain_coverRaise _ _ _ _ _ h1 h2 h3 h4 h5 h6 h7 h8 h9)))))))))
  by_cases h10 : env.submitFound = true ∧ env.submitClickRaises = true
  · exact Or.inr (Or.inr (Or.inr (Or.inr (Or.inr (Or.inr (Or.inr (Or.inr
      (applyToVacancy_of_error cfg env vurl retArg s _
        (applyMain_submitRaise _ _ _ _ _ h1 h2 h3 h4 h5 h6 h7 h8 h9 h10)))))))))
  · exact Or.inr (Or.inr (Or.inr (Or.inr (Or.inr (Or.inl
      (applyToVacancy_of_navBack cfg env vurl retArg s _ _
        (applyMain_success _ _ _ _ _ h1 h2 h3 h4 h5 h6 h7 h8 h9 h10)))))))

/-- The dedup-skip branch of `_apply_to_vacancy`, in isolation: with the
skip option enabled and the identifier already in the in-memory set, the call
only bumps `skipped_count`. -/
theorem apply_skip_branch (cfg : Config) (env : ApplyEnv) (vurl : String)
    (retArg : Option String) (s : BotState)
    (h1 : cfg.skipAlreadyApplied = true)
    (h2 : vacancyId vurl ∈ s.appliedVacancies) :
    applyToVacancy cfg env vurl retArg s = (.skipped, incSkipped s) :=
  applyToVacancy_of_ok cfg env vurl retArg s _ _ (applyMain_skip _ _ _ _ _ ⟨h1, h2⟩)

/-! ## C4 -/

/-- C4: for every listing URL whose derived identifier is already in the
Ledger, with the skip-already-applied option enabled, `apply` returns outcome
Skipped and performs no navigation call: the browser location, the navigation
trace, the in-memory ledger and the ledger file are all untouched (only
`skipped_count` is incremented). -/
theorem apply_skips_ledger_hit_without_navigation (cfg : Config) (env : ApplyEnv)
    (vurl : String) (retArg : Option String) (s : BotState)
    (h1 : cfg.skipAlreadyApplied = true)
    (h2 : vacancyId vurl ∈ s.appliedVacancies) :
    (applyToVacancy cfg env vurl retArg s).1 = .skipped ∧
    (applyToVacancy cfg env vurl retArg s).2.currentUrl = s.currentUrl ∧
    (applyToVacancy cfg env vurl retArg s).2.navTrace = s.navTrace ∧
    (applyToVacancy cfg env vurl retArg s).2.appliedVacancies = s.appliedVacancies ∧
    (applyToVacancy cfg env vurl retArg s).2.ledgerFile = s.ledgerFile := by
  rw [apply_skip_branch cfg env vurl retArg s h1 h2]
  exact ⟨rfl, rfl, rfl, rfl, rfl⟩

/-- Witness for C4 at a concrete input: the state `exStateA` already holds
`"123"`, so applying to `https://hh.ru/vacancy/123` is skipped untouched. -/
theorem apply_skips_ledger_hit_without_navigation_witness :
    (applyToVacancy exCfg exHappyEnv "https://hh.ru/vacancy/123" (some "S") exStateA).1
      = .skipped ∧
    (applyToVacancy exCfg exHappyEnv "https://hh.ru/vacancy/123" (some "S") exStateA).2.navTrace
      = exStateA.navTrace :=
  ⟨(apply_skips_ledger_hit_without_navigation exCfg exHappyEnv
      "https://hh.ru/vacancy/123" (some "S") exStateA rfl (by decide)).1,
   (apply_skips_ledger_hit_without_navigation exCfg exHappyEnv
      "https://hh.ru/vacancy/123" (some "S") exStateA rfl (by decide)).2.2.1⟩

/-! ## C1 -/

/-- C1 counterexample: the claim "after every call the location equals
`returnLocation`, whatever outcome is taken" fails on the Skipped outcome of
the dedup check.  Concretely: the browser sits on `"A"`, the listing
identifier `"123"` is already in the ledger and the skip option is on, so the
call returns Skipped without any navigation and the location stays `"A"`,
not the `returnLocation` `"S"`. -/
theorem apply_location_counterexample :
    (applyToVacancy exCfg exHappyEnv "https://hh.ru/vacancy/123" (some "S") exStateA).1
      = .skipped ∧
    (applyToVacancy exCfg exHappyEnv "https://hh.ru/vacancy/123" (some "S") exStateA).2.currentUrl
      ≠ "S" := by
  decide

/-- C1 amended: if the call starts on `returnLocation` (as the orchestrator
guarantees, passing the current search-page URL), navigating to
`returnLocation` does not raise, and that navigation lands where it is told,
then after the call — whatever outcome was taken, including an injected
exception at any step — the location again equals `returnLocation`.  (The
original claim fails only on the no-navigation dedup-skip path and when the
return navigation itself fails.) -/
theorem apply_returns_to_search_page (cfg : Config) (env : ApplyEnv) (vurl : String)
    (retArg : Option String) (s : BotState)
    (h1 : s.currentUrl = effectiveReturnUrl retArg s)
    (h2 : env.navRaises (effectiveReturnUrl retArg s) = false)
    (h3 : env.urlAfterNav (effectiveReturnUrl retArg s) = effectiveReturnUrl retArg s) :
    (applyToVacancy cfg env vurl retArg s).2.currentUrl = effectiveReturnUrl retArg s := by
  have hneg : ¬(env.navRaises (effectiveReturnUrl retArg s) = true) := by simp [h2]
  rcases applyToVacancy_shape cfg env vurl retArg s with h|h|h|h|h|h|h|h|h <;> rw [h] <;>
    first
      | exact h1
      | (unfold returnNav; rw [if_neg hneg]; exact h3)
      | (unfold handlerState; rw [if_neg hneg]; exact h3)

/-- Witness for the amended C1 at a concrete input. -/
theorem apply_returns_to_search_page_witness :
    (applyToVacancy exCfg exHappyEnv "https://hh.ru/vacancy/123" (some "S") exState).2.currentUrl
      = effectiveReturnUrl (some "S") exState :=
  apply_returns_to_search_page exCfg exHappyEnv "https://hh.ru/vacancy/123"
    (some "S") exState (by decide) (by decide) (by decide)

/-! ## C10 -/

/-- C10 counterexample: a call can increment two counters.  With an
environment where everything succeeds except that navigating back to the
search page `"S"` raises, the submit succeeds (`applied_count += 1`, ledger
updated) and then the return navigation raises into the outer handler, which
also does `error_count += 1`: the call incremented both `applied_count` and
`error_count`. -/
theorem apply_double_increment_counterexample :
    ¬ exactlyOneIncrement exState
        (applyToVacancy exCfg exRetRaisesEnv "https://hh.ru/vacancy/123" (some "S") exState).2 ∧
    (applyToVacancy exCfg exRetRaisesEnv "https://hh.ru/vacancy/123" (some "S") exState).2.appliedCount
      = 1 ∧
    (applyToVacancy exCfg exRetRaisesEnv "https://hh.ru/vacancy/123" (some "S") exState).2.errorCount
      = 1 := by
  decide

/-- C10 amended: every call to `_apply_to_vacancy` increments exactly one of
the three counters by exactly one, UNLESS the return navigation raises after
a counter was already incremented, in which case the outer handler
additionally increments the error counter: then the counters grow by exactly
two in total, at least one more error among them. -/
theorem apply_increments_one_counter_unless_return_nav_raises
    (cfg : Config) (env : ApplyEnv) (vurl : String) (retArg : Option String) (s : BotState) :
    exactlyOneIncrement s (applyToVacancy cfg env vurl retArg s).2 ∨
    (env.navRaises (effectiveReturnUrl retArg s) = true ∧
     counterSum (applyToVacancy cfg env vurl retArg s).2 = counterSum s + 2 ∧
     s.errorCount + 1 ≤ (applyToVacancy cfg env vurl retArg s).2.errorCount) := by
  by_cases hR : env.navRaises (effectiveReturnUrl retArg s) = true <;>
  rcases applyToVacancy_shape cfg env vurl retArg s with h|h|h|h|h|h|h|h|h <;> rw [h] <;>
  (try simp only [returnNav, handlerState]) <;>
  (try rw [if_pos hR]) <;> (try rw [if_neg hR]) <;>
  dsimp only [exactlyOneIncrement, counterSum, landNav, recordNav, incSkipped,
    incApplied, incError, saveAppliedVacancy, afterClick] <;>
  first
    | (left; omega)
    | (right; exact ⟨hR, by omega, by omega⟩)

/-! ## C5 -/

theorem mem_saveAppliedVacancy (vid : String) (t : BotState) :
    vid ∈ (saveAppliedVacancy vid t).appliedVacancies ∧
    vid ∈ (saveAppliedVacancy vid t).ledgerFile := by
  unfold saveAppliedVacancy
  by_cases h : vid ∈ t.appliedVacancies <;> simp [h]

/-- C5: when the run reaches the final submit step (apply control clicked, no
response-form redirect, no exception) and the submit control is NOT found
within the bounded wait, the outcome is still Applied, the identifier is
recorded in the ledger (memory and file), and the call's result is exactly
the result of the run in which the submit control IS found and its click
succeeds. -/
theorem apply_submit_timeout_still_applied (cfg : Config) (env : ApplyEnv)
    (vurl : String) (retArg : Option String) (s : BotState)
    (h1 : ¬(cfg.skipAlreadyApplied = true ∧ vacancyId vurl ∈ s.appliedVacancies))
    (h2 : ¬(env.navRaises vurl = true))
    (h3 : ¬(isResponseForm (env.urlAfterNav vurl) = true))
    (h4 : ¬(env.applyButtonFound = false))
    (h5 : ¬(env.scrollRaises = true))
    (h6 : ¬(env.clickRaises = true))
    (h7 : ¬(isResponseForm env.urlAfterClick = true))
    (h8 : ¬(env.cookiesRaises = true))
    (h9 : ¬(env.coverLetterFound = true ∧ env.coverLetterRaises = true))
    (h10 : env.submitFound = false)
    (hR : env.navRaises (effectiveReturnUrl retArg s) = false) :
    (applyToVacancy cfg env vurl retArg s).1 = .applied ∧
    vacancyId vurl ∈ (applyToVacancy cfg env vurl retArg s).2.appliedVacancies ∧
    vacancyId vurl ∈ (applyToVacancy cfg env vurl retArg s).2.ledgerFile ∧
    applyToVacancy cfg env vurl retArg s
      = applyToVacancy cfg
          { env with submitFound := true, submitClickRaises := false } vurl retArg s := by
  have hmain := applyToVacancy_of_navBack cfg env vurl retArg s .applied _
    (applyMain_success cfg env vurl _ s h1 h2 h3 h4 h5 h6 h7 h8 h9 (by simp [h10]))
  have hmain' := applyToVacancy_of_navBack cfg
      { env with submitFound := true, submitClickRaises := false } vurl retArg s .applied _
    (applyMain_success _ _ vurl _ s h1 h2 h3 h4 h5 h6 h7 h8 h9 (by simp))
  have hneg : ¬(env.navRaises (effectiveReturnUrl retArg s) = true) := by simp [hR]
  rw [hmain, hmain']
  unfold returnNav
  rw [if_neg hneg, if_neg hneg]
  refine ⟨rfl, ?_, ?_, rfl⟩
  · exact (mem_saveAppliedVacancy (vacancyId vurl) _).1
  · exact (mem_saveAppliedVacancy (vacancyId vurl) _).2

/-- Witness for C5 at a concrete input: submit button not found, everything
else clean. -/
theorem apply_submit_timeout_still_applied_witness :
    (applyToVacancy exCfg exNoSubmitEnv "https://hh.ru/vacancy/123" (some "S") exState).1
      = .applied ∧
    vacancyId "https://hh.ru/vacancy/123"
      ∈ (applyToVacancy exCfg exNoSubmitEnv "https://hh.ru/vacancy/123" (some "S") exState).2.ledgerFile :=
  ⟨(apply_submit_timeout_still_applied exCfg exNoSubmitEnv "https://hh.ru/vacancy/123"
      (some "S") exState (by decide) (by decide) (by decide) (by decide) (by decide)
      (by decide) (by decide) (by decide) (by decide) rfl (by decide)).1,
   (apply_submit_timeout_still_applied exCfg exNoSubmitEnv "https://hh.ru/vacancy/123"
      (some "S") exState (by decide) (by decide) (by decide) (by decide) (by decide)
      (by decide) (by decide) (by decide) (by decide) rfl (by decide)).2.2.1⟩

/-! ## C3 -/

/-- Once the identifier is in the in-memory set and the skip option is on,
every further call on the same listing is the dedup skip: the in-memory set
and the ledger file never change again, no matter how many calls follow. -/
theorem applyIter_skip_invariant (cfg : Config) (env : ApplyEnv) (vurl : String)
    (retArg : Option String)
    (hskip : cfg.skipAlreadyApplied = true)
    (t : BotState) (hmem : vacancyId vurl ∈ t.appliedVacancies) :
    ∀ n : Nat,
      (applyIter cfg env vurl retArg n t).appliedVacancies = t.appliedVacancies ∧
      (applyIter cfg env vurl retArg n t).ledgerFile = t.ledgerFile := by
  intro n
  induction n with
  | zero => exact ⟨rfl, rfl⟩
  | succ n ih =>
    unfold applyIter
    rw [apply_skip_branch cfg env vurl retArg _ hskip (ih.1.symm ▸ hmem)]
    exact ⟨ih.1, ih.2⟩

/-- C3: with the skip option on, a fresh identifier and a clean environment,
the first call on a listing yields Applied and writes the identifier once
into the ledger file; every later call (any number of them) yields Skipped,
leaves the in-memory set unchanged, and the identifier still occurs exactly
once in the ledger file. -/
theorem apply_twice_applied_then_skipped (cfg : Config) (env : ApplyEnv)
    (vurl : String) (retArg : Option String) (s : BotState)
    (hskip : cfg.skipAlreadyApplied = true)
    (hnew : vacancyId vurl ∉ s.appliedVacancies)
    (hcount : s.ledgerFile.count (vacancyId vurl) = 0)
    (henv : happyEnv env vurl (effectiveReturnUrl retArg s)) :
    (applyToVacancy cfg env vurl retArg s).1 = .applied ∧
    vacancyId vurl ∈ (applyToVacancy cfg env vurl retArg s).2.appliedVacancies ∧
    (applyToVacancy cfg env vurl retArg s).2.ledgerFile.count (vacancyId vurl) = 1 ∧
    (∀ n : Nat,
      (applyToVacancy cfg env vurl retArg
        (applyIter cfg env vurl retArg n (applyToVacancy cfg env vurl retArg s).2)).1
        = .skipped) ∧
    (∀ n : Nat,
      (applyIter cfg env vurl retArg n (applyToVacancy cfg env vurl retArg s).2).appliedVacancies
        = (applyToVacancy cfg env vurl retArg s).2.appliedVacancies) ∧
    (∀ n : Nat,
      (applyIter cfg env vurl retArg n
          (applyToVacancy cfg env vurl retArg s).2).ledgerFile.count (vacancyId vurl)
        = 1) := by
  obtain ⟨e1, e2, e3, e4, e5, e6, e7, e8, e9, e10⟩ := henv
  have hmain := applyToVacancy_of_navBack cfg env vurl retArg s .applied _
    (applyMain_success cfg env vurl _ s
      (fun hc => hnew hc.2) (by simp [e1]) (by simp [e3]) (by simp [e4])
      (by simp [e5]) (by simp [e6]) (by simp [e7]) (by simp [e8])
      (by rcases e9 with h | h <;> simp [h]) (by rcases e10 with h | h <;> simp [h]))
  have hneg : ¬(env.navRaises (effectiveReturnUrl retArg s) = true) := by simp [e2]
  rw [hmain]
  unfold returnNav
  rw [if_neg hneg]
  have hmem1 : vacancyId vurl
      ∈ (landNav env (effectiveReturnUrl retArg s)
          (incApplied (saveAppliedVacancy (vacancyId vurl) (afterClick env vurl s)))).appliedVacancies :=
    (mem_saveAppliedVacancy (vacancyId vurl) _).1
  have hledger : (landNav env (effectiveReturnUrl retArg s)
      (incApplied (saveAppliedVacancy (vacancyId vurl) (afterClick env vurl s)))).ledgerFile
      = s.ledgerFile ++ [vacancyId vurl] := rfl
  have hcount1 : (landNav env (effectiveReturnUrl retArg s)
      (incApplied (saveAppliedVacancy (vacancyId vurl) (afterClick env vurl s)))).ledgerFile.count
        (vacancyId vurl) = 1 := by
    rw [hledger, List.count_append, hcount]
    simp
  refine ⟨rfl, hmem1, hcount1, ?_, ?_, ?_⟩
  · intro n
    have hinv := applyIter_skip_invariant cfg env vurl retArg hskip _ hmem1 n
    rw [apply_skip_branch cfg env vurl retArg _ hskip (hinv.1.symm ▸ hmem1)]
  · intro n
    exact (applyIter_skip_invariant cfg env vurl retArg hskip _ hmem1 n).1
  · intro n
    rw [(applyIter_skip_invariant cfg env vurl retArg hskip _ hmem1 n).2]
    exact hcount1

/-- Witness for C3 at a concrete input. -/
theorem apply_twice_applied_then_skipped_witness :
    (applyToVacancy exCfg exHappyEnv "https://hh.ru/vacancy/123" (some "S") exState).1
      = .applied ∧
    (applyToVacancy exCfg exHappyEnv "https://hh.ru/vacancy/123" (some "S")
        (applyIter exCfg exHappyEnv "https://hh.ru/vacancy/123" (some "S") 0
          (applyToVacancy exCfg exHappyEnv "https://hh.ru/vacancy/123" (some "S") exState).2)).1
      = .skipped :=
  ⟨(apply_twice_applied_then_skipped exCfg exHappyEnv "https://hh.ru/vacancy/123"
      (some "S") exState rfl (by decide) (by decide) (by decide)).1,
   (apply_twice_applied_then_skipped exCfg exHappyEnv "https://hh.ru/vacancy/123"
      (some "S") exState rfl (by decide) (by decide) (by decide)).2.2.2.1 0⟩

/-! ## C2 -/

/-- Invariant of the per-page listing loop: `applications_today` grows by
exactly the number of Applied outcomes appended to the attempt log, and it
never exceeds the daily cap if it did not on entry. -/
theorem processListings_invariant (cfg : Config) (renv : RunEnv) (cur : String) :
    ∀ (links : List String) (acc : RunAcc),
      (processListings cfg renv cur links acc).today + acc.attempts.count .applied
        = acc.today + (processListings cfg renv cur links acc).attempts.count .applied ∧
      (acc.today ≤ cfg.maxApplicationsPerDay →
        (processListings cfg renv cur links acc).today ≤ cfg.maxApplicationsPerDay) := by
  intro links
  induction links with
  | nil => intro acc; simp only [processListings]; exact ⟨trivial, fun h => h⟩
  | cons url rest ih =>
    intro acc
    simp only [processListings]
    by_cases hq : cfg.maxApplicationsPerDay ≤ acc.today
    · rw [if_pos hq]; exact ⟨rfl, fun h => h⟩
    · rw [if_neg hq]
      generalize applyToVacancy cfg (renv.applyEnv url) url (some cur) acc.st = res
      obtain ⟨o, st'⟩ := res
      have hrec := ih { today := if (o, st').1 = .applied then acc.today + 1 else acc.today,
                        st := (o, st').2,
                        attempts := acc.attempts ++ [(o, st').1] }
      cases o <;>
        simp only [List.count_append, List.count_cons, List.count_nil] at hrec ⊢ <;>
        simp at hrec ⊢ <;>
        omega

/-- Invariant of the page loop, for every fuel bound. -/
theorem pageLoop_invariant (cfg : Config) (renv : RunEnv) (kIdx : Nat) :
    ∀ (fuel page : Nat) (acc : RunAcc),
      (pageLoop cfg renv kIdx fuel page acc).today + acc.attempts.count .applied
        = acc.today + (pageLoop cfg renv kIdx fuel page acc).attempts.count .applied ∧
      (acc.today ≤ cfg.maxApplicationsPerDay →
        (pageLoop cfg renv kIdx fuel page acc).today ≤ cfg.maxApplicationsPerDay) := by
  intro fuel
  induction fuel with
  | zero => intro page acc; simp only [pageLoop]; exact ⟨trivial, fun h => h⟩
  | succ fuel ih =>
    intro page acc
    simp only [pageLoop]
    by_cases hq : cfg.maxApplicationsPerDay ≤ acc.today
    · rw [if_pos hq]; exact ⟨rfl, fun h => h⟩
    rw [if_neg hq]
    by_cases hl : getVacancyLinks (renv.pageHrefs kIdx (page + 1)) = []
    · rw [if_pos hl]; exact ⟨rfl, fun h => h⟩
    rw [if_neg hl]
    have hproc := processListings_invariant cfg renv acc.st.currentUrl
      (getVacancyLinks (renv.pageHrefs kIdx (page + 1))) acc
    by_cases hq2 : cfg.maxApplicationsPerDay
        ≤ (processListings cfg renv acc.st.currentUrl
            (getVacancyLinks (renv.pageHrefs kIdx (page + 1))) acc).today
    · rw [if_pos hq2]
      exact ⟨hproc.1, hproc.2⟩
    rw [if_neg hq2]
    cases hnext : renv.nextPageResult kIdx (page + 1) with
    | none => exact ⟨hproc.1, hproc.2⟩
    | some u =>
      have hrec := ih (page + 1)
        { processListings cfg renv acc.st.currentUrl
            (getVacancyLinks (renv.pageHrefs kIdx (page + 1))) acc with
          st := { (processListings cfg renv acc.st.currentUrl
                    (getVacancyLinks (renv.pageHrefs kIdx (page + 1))) acc).st with
                  currentUrl := u } }
      dsimp only at hrec ⊢
      exact ⟨by omega, fun _ => hrec.2 (by omega)⟩

/-- Invariant of the keyword loop. -/
theorem keywordLoop_invariant (cfg : Config) (renv : RunEnv) (fuel : Nat) :
    ∀ (kws : List String) (kIdx : Nat) (acc : RunAcc),
      (keywordLoop cfg renv fuel kws kIdx acc).today + acc.attempts.count .applied
        = acc.today + (keywordLoop cfg renv fuel kws kIdx acc).attempts.count .applied ∧
      (acc.today ≤ cfg.maxApplicationsPerDay →
        (keywordLoop cfg renv fuel kws kIdx acc).today ≤ cfg.maxApplicationsPerDay) := by
  intro kws
  induction kws with
  | nil => intro kIdx acc; simp only [keywordLoop]; exact ⟨trivial, fun h => h⟩
  | cons kw rest ih =>
    intro kIdx acc
    simp only [keywordLoop]
    by_cases hq : cfg.maxApplicationsPerDay ≤ acc.today
    · rw [if_pos hq]; exact ⟨rfl, fun h => h⟩
    rw [if_neg hq]
    cases hnav : driverGet renv.topEnv (buildSearchUrl cfg.filters (some kw)) acc.st with
    | error s₁ => exact ⟨rfl, fun h => h⟩
    | ok s₁ =>
      have hpage := pageLoop_invariant cfg renv kIdx fuel 0 { acc with st := s₁ }
      have hrec := ih (kIdx + 1) (pageLoop cfg renv kIdx fuel 0 { acc with st := s₁ })
      dsimp only at hpage hrec ⊢
      exact ⟨by omega, fun _ => hrec.2 (hpage.2 (by omega))⟩

/-- C2 counterexample: the quota bounds only Applied outcomes, not
Applied-or-Errored.  With a daily cap of 1 and one page of two listings whose
apply attempts both end Errored, the run processes both (2 > 1 attempts end
in Applied-or-Errored), because `applications_today` is incremented only when
`_apply_to_vacancy` returns `True`. -/
theorem run_quota_counterexample :
    exCfg.maxApplicationsPerDay = 1 ∧
    (run exCfg exErrRunEnv 3 exState).attempts.count .applied
      + (run exCfg exErrRunEnv 3 exState).attempts.count .errored = 2 := by
  decide

/-- C2 amended: in every run, the number of listings whose apply attempt ends
in outcome Applied never exceeds `max_applications_per_day` (Errored attempts
are not counted against the quota by the code). -/
theorem run_applied_never_exceeds_quota (cfg : Config) (renv : RunEnv)
    (fuel : Nat) (s : BotState) :
    (run cfg renv fuel s).attempts.count .applied ≤ cfg.maxApplicationsPerDay := by
  unfold run
  by_cases h1 : renv.loginOk = false
  · rw [if_pos h1]; simp
  rw [if_neg h1]
  by_cases h2 : cfg.filters.keywords = []
  · rw [if_pos h2]; simp
  rw [if_neg h2]
  have hk := keywordLoop_invariant cfg renv fuel cfg.filters.keywords 0
    { today := 0, st := s, attempts := [] }
  simp only [List.count_nil] at hk
  have hb := hk.2 (Nat.zero_le _)
  omega

/-! ## C6 and C7: the search-URL builder -/

theorem textPart_mem (f : SearchFilters) (k : Option String) (x : String)
    (h : x ∈ (textPart f k).map Prod.fst) :
    x = "text" ∧ (optStrTruthy k = true ∨ f.keywords ≠ []) := by
  unfold textPart at h
  split_ifs at h with h1 h2
  · refine ⟨by simpa using h, Or.inl h1⟩
  · refine ⟨by simpa using h, Or.inr ?_⟩
    intro hk; rw [hk] at h2; simp at h2
  · simp at h

theorem salaryPart_mem (f : SearchFilters) (x : String)
    (h : x ∈ (salaryPart f).map Prod.fst) :
    x = "salary" ∧ optNatTruthy f.salaryMin = true := by
  unfold salaryPart at h
  split_ifs at h with h1
  · exact ⟨by simpa using h, h1⟩
  · simp at h

theorem areaPart_mem (f : SearchFilters) (x : String)
    (h : x ∈ (areaPart f).map Prod.fst) :
    x = "area" ∧ optStrTruthy f.area = true := by
  unfold areaPart at h
  split_ifs at h with h1
  · exact ⟨by simpa using h, h1⟩
  · simp at h

theorem expPart_mem (f : SearchFilters) (x : String)
    (h : x ∈ (expPart f).map Prod.fst) :
    x = "experience" ∧ optStrTruthy f.experience = true ∧
      ¬(expMap (f.experience.getD "") = "") := by
  unfold expPart at h
  split_ifs at h with h1 h2
  · exact ⟨by simpa using h, h1, by simpa using h2⟩
  · simp at h
  · simp at h

theorem empPart_mem (f : SearchFilters) (x : String)
    (h : x ∈ (empPart f).map Prod.fst) :
    x = "employment" ∧ optStrTruthy f.employment = true ∧
      ¬(employmentMap (f.employment.getD "") = "") := by
  unfold empPart at h
  split_ifs at h with h1 h2
  · exact ⟨by simpa using h, h1, by simpa using h2⟩
  · simp at h
  · simp at h

theorem schedPart_mem (f : SearchFilters) (x : String)
    (h : x ∈ (schedPart f).map Prod.fst) :
    x = "schedule" ∧ optStrTruthy f.schedule = true ∧
      ¬(scheduleMap (f.schedule.getD "") = "") := by
  unfold schedPart at h
  split_ifs at h with h1 h2
  · exact ⟨by simpa using h, h1, by simpa using h2⟩
  · simp at h
  · simp at h

/-- A key occurs in `params_dict` only with its part's guard conditions. -/
theorem params_key_conditions (f : SearchFilters) (k : Option String) (x : String)
    (hmem : x ∈ (buildSearchParams f k).map Prod.fst) :
    (x = "text" ∧ (optStrTruthy k = true ∨ f.keywords ≠ [])) ∨
    (x = "salary" ∧ optNatTruthy f.salaryMin = true) ∨
    (x = "area" ∧ optStrTruthy f.area = true) ∨
    (x = "experience" ∧ optStrTruthy f.experience = true ∧
      ¬(expMap (f.experience.getD "") = "")) ∨
    (x = "employment" ∧ optStrTruthy f.employment = true ∧
      ¬(employmentMap (f.employment.getD "") = "")) ∨
    (x = "schedule" ∧ optStrTruthy f.schedule = true ∧
      ¬(scheduleMap (f.schedule.getD "") = "")) := by
  unfold buildSearchParams at hmem
  simp only [List.map_append, List.mem_append] at hmem
  rcases hmem with ((((hm | hm) | hm) | hm) | hm) | hm
  · exact Or.inl (textPart_mem f k x hm)
  · exact Or.inr (Or.inl (salaryPart_mem f x hm))
  · exact Or.inr (Or.inr (Or.inl (areaPart_mem f x hm)))
  · exact Or.inr (Or.inr (Or.inr (Or.inl (expPart_mem f x hm))))
  · exact Or.inr (Or.inr (Or.inr (Or.inr (Or.inl (empPart_mem f x hm)))))
  · exact Or.inr (Or.inr (Or.inr (Or.inr (Or.inr (schedPart_mem f x hm)))))

theorem not_in_params_text (f : SearchFilters) (k : Option String)
    (h1 : optStrTruthy k = false) (h2 : f.keywords = []) :
    "text" ∉ (buildSearchParams f k).map Prod.fst := by
  intro hmem
  rcases params_key_conditions f k _ hmem with c | c | c | c | c | c
  · rcases c.2 with hc | hc
    · rw [h1] at hc; exact Bool.noConfusion hc
    · exact hc h2
  · exact absurd c.1 (by decide)
  · exact absurd c.1 (by decide)
  · exact absurd c.1 (by decide)
  · exact absurd c.1 (by decide)
  · exact absurd c.1 (by decide)

theorem not_in_params_salary (f : SearchFilters) (k : Option String)
    (h : optNatTruthy f.salaryMin = false) :
    "salary" ∉ (buildSearchParams f k).map Prod.fst := by
  intro hmem
  rcases params_key_conditions f k _ hmem with c | c | c | c | c | c
  · exact absurd c.1 (by decide)
  · rw [h] at c; exact Bool.noConfusion c.2
  · exact absurd c.1 (by decide)
  · exact absurd c.1 (by decide)
  · exact absurd c.1 (by decide)
  · exact absurd c.1 (by decide)

theorem not_in_params_area (f : SearchFilters) (k : Option String)
    (h : optStrTruthy f.area = false) :
    "area" ∉ (buildSearchParams f k).map Prod.fst := by
  intro hmem
  rcases params_key_conditions f k _ hmem with c | c | c | c | c | c
  · exact absurd c.1 (by decide)
  · exact absurd c.1 (by decide)
  · rw [h] at c; exact Bool.noConfusion c.2
  · exact absurd c.1 (by decide)
  · exact absurd c.1 (by decide)
  · exact absurd c.1 (by decide)

theorem not_in_params_experience_unset (f : SearchFilters) (k : Option String)
    (h : optStrTruthy f.experience = false) :
    "experience" ∉ (buildSearchParams f k).map Prod.fst := by
  intro hmem
  rcases params_key_conditions f k _ hmem with c | c | c | c | c | c
  · exact absurd c.1 (by decide)
  · exact absurd c.1 (by decide)
  · exact absurd c.1 (by decide)
  · rw [h] at c; exact Bool.noConfusion c.2.1
  · exact absurd c.1 (by decide)
  · exact absurd c.1 (by decide)

theorem not_in_params_employment_unset (f : SearchFilters) (k : Option String)
    (h : optStrTruthy f.employment = false) :
    "employment" ∉ (buildSearchParams f k).map Prod.fst := by
  intro hmem
  rcases params_key_conditions f k _ hmem with c | c | c | c | c | c
  · exact absurd c.1 (by decide)
  · exact absurd c.1 (by decide)
  · exact absurd c.1 (by decide)
  · exact absurd c.1 (by decide)
  · rw [h] at c; exact Bool.noConfusion c.2.1
  · exact absurd c.1 (by decide)

theorem not_in_params_schedule_unset (f : SearchFilters) (k : Option String)
    (h : optStrTruthy f.schedule = false) :
    "schedule" ∉ (buildSearchParams f k).map Prod.fst := by
  intro hmem
  rcases params_key_conditions f k _ hmem with c | c | c | c | c | c
  · exact absurd c.1 (by decide)
  · exact absurd c.1 (by decide)
  · exact absurd c.1 (by decide)
  · exact absurd c.1 (by decide)
  · exact absurd c.1 (by decide)
  · rw [h] at c; exact Bool.noConfusion c.2.1

/-- C6: `_build_search_url` is a pure function — equal inputs give
byte-identical URL strings — the URL is exactly the base plus the encoded
parameter list, and every unset (absent, empty or falsy) filter field is
omitted from the parameter list entirely, so it never appears as an empty
parameter. -/
theorem build_search_url_pure_and_omits_unset :
    (∀ (f₁ f₂ : SearchFilters) (k₁ k₂ : Option String),
        f₁ = f₂ → k₁ = k₂ → buildSearchUrl f₁ k₁ = buildSearchUrl f₂ k₂) ∧
    (∀ (f : SearchFilters) (k : Option String),
        buildSearchUrl f k
          = "https://hh.ru/search/vacancy" ++ "?" ++ urlencode (buildSearchParams f k)) ∧
    (∀ (f : SearchFilters) (k : Option String), optStrTruthy k = false →
        f.keywords = [] → "text" ∉ (buildSearchParams f k).map Prod.fst) ∧
    (∀ (f : SearchFilters) (k : Option String), optNatTruthy f.salaryMin = false →
        "salary" ∉ (buildSearchParams f k).map Prod.fst) ∧
    (∀ (f : SearchFilters) (k : Option String), optStrTruthy f.area = false →
        "area" ∉ (buildSearchParams f k).map Prod.fst) ∧
    (∀ (f : SearchFilters) (k : Option String), optStrTruthy f.experience = false →
        "experience" ∉ (buildSearchParams f k).map Prod.fst) ∧
    (∀ (f : SearchFilters) (k : Option String), optStrTruthy f.employment = false →
        "employment" ∉ (buildSearchParams f k).map Prod.fst) ∧
    (∀ (f : SearchFilters) (k : Option String), optStrTruthy f.schedule = false →
        "schedule" ∉ (buildSearchParams f k).map Prod.fst) := by
  refine ⟨?_, ?_, ?_, ?_, ?_, ?_, ?_, ?_⟩
  · intro f₁ f₂ k₁ k₂ hf hk; rw [hf, hk]
  · intro f k; rfl
  · exact not_in_params_text
  · exact not_in_params_salary
  · exact not_in_params_area
  · exact not_in_params_experience_unset
  · exact not_in_params_employment_unset
  · exact not_in_params_schedule_unset

/-- Witness for C6 at a concrete input: with every optional filter unset,
only `text` is produced. -/
theorem build_search_url_pure_and_omits_unset_witness :
    buildSearchUrl exFilters (some "python") = buildSearchUrl exFilters (some "python") ∧
    "salary" ∉ (buildSearchParams exFilters (some "python")).map Prod.fst :=
  ⟨build_search_url_pure_and_omits_unset.1 exFilters exFilters (some "python")
      (some "python") rfl rfl,
   build_search_url_pure_and_omits_unset.2.2.2.1 exFilters (some "python") rfl⟩

/-- C7 counterexample: an UNSET region is omitted from the query, not
defaulted: with `area = none` no `area` parameter is produced, contradicting
"region defaults to a fixed code".  (The fixed default `"1"` applies only to
set-but-unknown region values — see the amended theorem.) -/
theorem region_default_counterexample :
    exFilters.area = none ∧
    "area" ∉ (buildSearchParams exFilters (some "java")).map Prod.fst := by
  exact ⟨rfl, by decide⟩

/-- C7 amended: every unset filter field — INCLUDING region — is omitted from
the query with no default injected; the fixed region code `"1"` is injected
only for a region that is set but unknown to the region map; and unknown
experience / employment / schedule enum values are silently omitted. -/
theorem unset_fields_omitted_unknown_enums_dropped :
    (∀ (f : SearchFilters) (k : Option String), optStrTruthy f.area = false →
        "area" ∉ (buildSearchParams f k).map Prod.fst) ∧
    (∀ (f : SearchFilters) (k : Option String) (a : String),
        f.area = some a → a ≠ "" → a ≠ "Москва" → a ≠ "Санкт-Петербург" →
        ("area", "1") ∈ buildSearchParams f k) ∧
    (∀ (f : SearchFilters) (k : Option String) (e : String),
        f.experience = some e → expMap e = "" →
        "experience" ∉ (buildSearchParams f k).map Prod.fst) ∧
    (∀ (f : SearchFilters) (k : Option String) (e : String),
        f.employment = some e → employmentMap e = "" →
        "employment" ∉ (buildSearchParams f k).map Prod.fst) ∧
    (∀ (f : SearchFilters) (k : Option String) (e : String),
        f.schedule = some e → scheduleMap e = "" →
        "schedule" ∉ (buildSearchParams f k).map Prod.fst) ∧
    (∀ (f : SearchFilters) (k : Option String), optNatTruthy f.salaryMin = false →
        "salary" ∉ (buildSearchParams f k).map Prod.fst) ∧
    (∀ (f : SearchFilters) (k : Option String), optStrTruthy k = false →
        f.keywords = [] → "text" ∉ (buildSearchParams f k).map Prod.fst) := by
  refine ⟨not_in_params_area, ?_, ?_, ?_, ?_, not_in_params_salary, not_in_params_text⟩
  · intro f k a ha hne h1 h2
    have harea : areaPart f = [("area", "1")] := by
      unfold areaPart
      rw [ha]
      rw [if_pos (by simp [optStrTruthy, hne])]
      simp [areaMap, h1, h2]
    unfold buildSearchParams
    rw [harea]
    simp
  · intro f k e he hmap hmem
    rcases params_key_conditions f k _ hmem with c | c | c | c | c | c
    · exact absurd c.1 (by decide)
    · exact absurd c.1 (by decide)
    · exact absurd c.1 (by decide)
    · rw [he] at c; exact c.2.2 (by simpa using hmap)
    · exact absurd c.1 (by decide)
    · exact absurd c.1 (by decide)
  · intro f k e he hmap hmem
    rcases params_key_conditions f k _ hmem with c | c | c | c | c | c
    · exact absurd c.1 (by decide)
    · exact absurd c.1 (by decide)
    · exact absurd c.1 (by decide)
    · exact absurd c.1 (by decide)
    · rw [he] at c; exact c.2.2 (by simpa using hmap)
    · exact absurd c.1 (by decide)
  · intro f k e he hmap hmem
    rcases params_key_conditions f k _ hmem with c | c | c | c | c | c
    · exact absurd c.1 (by decide)
    · exact absurd c.1 (by decide)
    · exact absurd c.1 (by decide)
    · exact absurd c.1 (by decide)
    · exact absurd c.1 (by decide)
    · rw [he] at c; exact c.2.2 (by simpa using hmap)

/-- Witness for the amended C7 at concrete inputs: a set-but-unknown region
gets the fixed code `"1"`; an unknown experience value is dropped. -/
theorem unset_fields_omitted_unknown_enums_dropped_witness :
    ("area", "1") ∈ buildSearchParams exUnknownFilters (some "py") ∧
    "experience" ∉ (buildSearchParams exUnknownFilters (some "py")).map Prod.fst :=
  ⟨unset_fields_omitted_unknown_enums_dropped.2.1 exUnknownFilters (some "py")
      "Казань" rfl (by decide) (by decide) (by decide),
   unset_fields_omitted_unknown_enums_dropped.2.2.1 exUnknownFilters (some "py")
      "junior" rfl rfl⟩

/-! ## C8: `_get_vacancy_links` -/

/-- Unfolding equation of `firstSeen` on a cons cell. -/
theorem firstSeen_cons (x : String) (xs : List String) :
    firstSeen (x :: xs) = x :: firstSeen (xs.filter (fun y => !(y == x))) := by
  rw [firstSeen.eq_def]

/-- The seen-set loop of the source equals canonical first-seen
deduplication of the normalized link stream, for any initial seen set. -/
theorem collectLinks_eq (hrefs : List (Option String)) :
    ∀ seen : List String,
      collectLinks seen hrefs
        = firstSeen ((normalizedStream hrefs).filter (fun y => !(decide (y ∈ seen)))) := by
  induction hrefs with
  | nil => intro seen; simp [collectLinks, normalizedStream, firstSeen]
  | cons h rest ih =>
    intro seen
    cases h with
    | none =>
      have hLHS : collectLinks seen (none :: rest) = collectLinks seen rest := by
        simp only [collectLinks]
      have hstream : normalizedStream (none :: rest) = normalizedStream rest := by
        simp [normalizedStream]
      rw [hLHS, hstream]
      exact ih seen
    | some l =>
      cases hn : normalizeHref l with
      | none =>
        have hLHS : collectLinks seen (some l :: rest) = collectLinks seen rest := by
          simp only [collectLinks, hn]
        have hstream : normalizedStream (some l :: rest) = normalizedStream rest := by
          simp [normalizedStream, hn]
        rw [hLHS, hstream]
        exact ih seen
      | some clean =>
        have hLHS : collectLinks seen (some l :: rest)
            = if clean ∈ seen then collectLinks seen rest
              else clean :: collectLinks (clean :: seen) rest := by
          simp only [collectLinks, hn]
        have hstream : normalizedStream (some l :: rest)
            = clean :: normalizedStream rest := by
          simp [normalizedStream, hn]
        rw [hLHS, hstream]
        by_cases hc : clean ∈ seen
        · rw [if_pos hc, List.filter_cons]
          have hpc : ¬((!(decide (clean ∈ seen))) = true) := by simp [hc]
          rw [if_neg hpc]
          exact ih seen
        · rw [if_neg hc, List.filter_cons]
          have hpc : (!(decide (clean ∈ seen))) = true := by simp [hc]
          rw [if_pos hpc, firstSeen_cons]
          rw [ih (clean :: seen), List.filter_filter]
          have hfun : (fun y => !(decide (y ∈ clean :: seen)))
              = (fun y => (!(y == clean)) && (!(decide (y ∈ seen)))) := by
            funext y
            by_cases hy1 : y = clean <;> by_cases hy2 : y ∈ seen <;> simp [hy1, hy2]
          rw [hfun]

/-- `_get_vacancy_links` equals first-seen deduplication of the normalized
stream. -/
theorem getVacancyLinks_eq_firstSeen (hrefs : List (Option String)) :
    getVacancyLinks hrefs = firstSeen (normalizedStream hrefs) := by
  have h := collectLinks_eq hrefs []
  simpa [getVacancyLinks] using h

theorem mem_firstSeen_aux :
    ∀ (n : Nat) (l : List String), l.length ≤ n → ∀ y, y ∈ firstSeen l → y ∈ l := by
  intro n
  induction n with
  | zero =>
    intro l hl y hy
    have : l = [] := List.eq_nil_of_length_eq_zero (Nat.le_zero.mp hl)
    subst this
    simp [firstSeen] at hy
  | succ n ih =>
    intro l hl y hy
    match l with
    | [] => simp [firstSeen] at hy
    | x :: xs =>
      rw [firstSeen_cons] at hy
      rcases List.mem_cons.mp hy with h | h
      · exact h ▸ List.mem_cons_self x xs
      · have hlen : (xs.filter (fun y => !(y == x))).length ≤ n :=
          le_trans (List.length_filter_le _ _) (by simpa using hl)
        exact List.mem_cons_of_mem x (List.mem_of_mem_filter (ih _ hlen y h))

theorem firstSeen_nodup_aux :
    ∀ (n : Nat) (l : List String), l.length ≤ n → (firstSeen l).Nodup := by
  intro n
  induction n with
  | zero =>
    intro l hl
    have : l = [] := List.eq_nil_of_length_eq_zero (Nat.le_zero.mp hl)
    subst this
    simp [firstSeen]
  | succ n ih =>
    intro l hl
    match l with
    | [] => simp [firstSeen]
    | x :: xs =>
      rw [firstSeen_cons]
      have hlen : (xs.filter (fun y => !(y == x))).length ≤ n :=
        le_trans (List.length_filter_le _ _) (by simpa using hl)
      refine List.nodup_cons.mpr ⟨?_, ih _ hlen⟩
      intro hx
      have := List.of_mem_filter (mem_firstSeen_aux n _ hlen x hx)
      simp at this

/-- C8: `_get_vacancy_links` returns exactly the first-seen deduplication of
the normalized (relative paths resolved, query strings stripped) listing
links of the page, so each distinct URL occurs exactly once, in first-seen
order; a page with no listings yields the empty sequence. -/
theorem get_vacancy_links_normalized_dedup :
    (∀ hrefs : List (Option String),
        getVacancyLinks hrefs = firstSeen (normalizedStream hrefs)) ∧
    (∀ hrefs : List (Option String), (getVacancyLinks hrefs).Nodup) ∧
    getVacancyLinks [] = [] := by
  refine ⟨getVacancyLinks_eq_firstSeen, ?_, rfl⟩
  intro hrefs
  rw [getVacancyLinks_eq_firstSeen]
  exact firstSeen_nodup_aux (normalizedStream hrefs).length _ (le_refl _)

/-! ## C9: the derived listing identifier -/

theorem pySplit_ne_nil (sep : Char) : ∀ l : List Char, pySplit sep l ≠ [] := by
  intro l
  induction l with
  | nil => simp [pySplit]
  | cons c rest ih =>
    unfold pySplit
    by_cases hc : c = sep
    · rw [if_pos hc]; simp
    · rw [if_neg hc]
      cases hsplit : pySplit sep rest with
      | nil => simp
      | cons g gs => simp

theorem pySplit_headD (sep : Char) :
    ∀ l : List Char,
      (pySplit sep l).headD [] = l.takeWhile (fun c => !(c == sep)) := by
  intro l
  induction l with
  | nil => rfl
  | cons c rest ih =>
    unfold pySplit
    by_cases hc : c = sep
    · rw [if_pos hc]
      simp [List.takeWhile_cons, hc]
    · rw [if_neg hc]
      cases hsplit : pySplit sep rest with
      | nil => exact absurd hsplit (pySplit_ne_nil sep rest)
      | cons g gs =>
        rw [hsplit] at ih
        simp only [List.headD_cons] at ih
        simp [List.takeWhile_cons, hc, ih]

theorem takeWhile_append_single (p : Char → Bool) (x : Char) (hx : p x = false) :
    ∀ l : List Char, (l ++ [x]).takeWhile p = l.takeWhile p := by
  intro l
  induction l with
  | nil => simp [List.takeWhile_cons, hx]
  | cons a l ih =>
    by_cases ha : p a = true <;>
      simp [List.takeWhile_cons, ha, ih]

theorem takeWhile_append_all (p : Char → Bool) :
    ∀ (l m : List Char), (∀ x ∈ l, p x = true) →
      (l ++ m).takeWhile p = l ++ m.takeWhile p := by
  intro l
  induction l with
  | nil => intro m _; rfl
  | cons a l ih =>
    intro m hall
    have ha : p a = true := hall a (List.mem_cons_self a l)
    simp [List.takeWhile_cons, ha]
    exact ih m (fun x hx => hall x (List.mem_cons_of_mem a hx))

theorem takeWhile_append_stop (p : Char → Bool) :
    ∀ (l m : List Char), (∃ x ∈ l, p x = false) →
      (l ++ m).takeWhile p = l.takeWhile p := by
  intro l
  induction l with
  | nil => intro m h; simp at h
  | cons a l ih =>
    intro m h
    by_cases ha : p a = true
    · have : ∃ x ∈ l, p x = false := by
        rcases h with ⟨x, hx, hpx⟩
        rcases List.mem_cons.mp hx with rfl | hx
        · rw [ha] at hpx; exact Bool.noConfusion hpx
        · exact ⟨x, hx, hpx⟩
      simp [List.takeWhile_cons, ha, ih m this]
    · have ha' : p a = false := by simpa using ha
      simp [List.takeWhile_cons, ha']

theorem pySplit_all (sep : Char) :
    ∀ l : List Char, (∀ c ∈ l, (!(c == sep)) = true) → pySplit sep l = [l] := by
  intro l
  induction l with
  | nil => intro _; rfl
  | cons c rest ih =>
    intro hall
    have hc : ¬(c = sep) := by
      have := hall c (List.mem_cons_self c rest)
      simpa using this
    unfold pySplit
    rw [if_neg hc, ih (fun x hx => hall x (List.mem_cons_of_mem c hx))]

theorem pySplit_single (sep : Char) :
    ∀ (l g : List Char), pySplit sep l = [g] →
      (∀ c ∈ l, (!(c == sep)) = true) ∧ g = l := by
  intro l
  induction l with
  | nil =>
    intro g h
    simp [pySplit] at h
    exact ⟨by intro c hc; simp at hc, h⟩
  | cons c rest ih =>
    intro g h
    unfold pySplit at h
    by_cases hc : c = sep
    · rw [if_pos hc] at h
      have : pySplit sep rest = [] := (List.cons.injEq _ _ _ _).mp h |>.2
      exact absurd this (pySplit_ne_nil sep rest)
    · rw [if_neg hc] at h
      cases hsplit : pySplit sep rest with
      | nil => exact absurd hsplit (pySplit_ne_nil sep rest)
      | cons g' gs =>
        rw [hsplit] at h
        have h1 : (c :: g') = g ∧ gs = [] := by
          constructor
          · exact ((List.cons.injEq _ _ _ _).mp h).1
          · exact ((List.cons.injEq _ _ _ _).mp h).2
        have hrest := ih g' (by rw [hsplit, h1.2])
        constructor
        · intro x hx
          rcases List.mem_cons.mp hx with rfl | hx
          · simpa using hc
          · exact hrest.1 x hx
        · rw [← h1.1, hrest.2]

theorem pySplit_getLastD (sep : Char) :
    ∀ l : List Char,
      (pySplit sep l).getLastD []
        = (l.reverse.takeWhile (fun c => !(c == sep))).reverse := by
  intro l
  induction l with
  | nil => rfl
  | cons c rest ih =>
    unfold pySplit
    by_cases hc : c = sep
    · rw [if_pos hc]
      have hstep : ((([] : List Char) :: pySplit sep rest).getLastD [])
          = (pySplit sep rest).getLastD [] := List.getLastD_cons _ _ _
      rw [hstep, ih]
      have hx : (fun c => !(c == sep)) c = false := by simp [hc]
      rw [List.reverse_cons, takeWhile_append_single _ c hx]
    · rw [if_neg hc]
      cases hsplit : pySplit sep rest with
      | nil => exact absurd hsplit (pySplit_ne_nil sep rest)
      | cons g gs =>
        cases gs with
        | nil =>
          have hsingle := pySplit_single sep rest g hsplit
          have hallrev : ∀ x ∈ rest.reverse, (fun c => !(c == sep)) x = true := by
            intro x hx
            exact hsingle.1 x (List.mem_reverse.mp hx)
          have hpc : (fun c => !(c == sep)) c = true := by simpa using hc
          rw [List.reverse_cons, takeWhile_append_all _ _ _ hallrev]
          have hlhs : ((c :: g) :: ([] : List (List Char))).getLastD [] = c :: g := rfl
          rw [hlhs, hsingle.2]
          simp [List.takeWhile_cons, hpc, List.reverse_append]
        | cons g₂ gs' =>
          have hnotall : ∃ x ∈ rest.reverse, (fun c => !(c == sep)) x = false := by
            by_contra hno
            push_neg at hno
            have hall : ∀ x ∈ rest, (!(x == sep)) = true := by
              intro x hx
              have := hno x (List.mem_reverse.mpr hx)
              simpa using this
            rw [pySplit_all sep rest hall] at hsplit
            exact absurd ((List.cons.injEq _ _ _ _).mp hsplit).2.symm (by simp)
          have hstep : ((c :: g) :: g₂ :: gs').getLastD [] = (pySplit sep rest).getLastD [] := by
            rw [hsplit]
            simp only [List.getLastD_cons]
          rw [hstep, ih, List.reverse_cons, takeWhile_append_stop _ _ _ hnotall]

/-- C9: the identifier the code derives (`url.split('/')[-1].split('?')[0]`)
equals the spec's description — the last `/`-separated segment with the `?`
query suffix removed; for a URL with a trailing slash it is the empty string,
which is still looked up in the Ledger (triggering the dedup skip) and can be
added to the Ledger. -/
theorem vacancy_identifier_matches_spec :
    (∀ url : String, vacancyId url = specListingIdentifier url) ∧
    (∀ w : String, vacancyId (w ++ "/") = "") ∧
    (∀ (cfg : Config) (env : ApplyEnv) (retArg : Option String) (s : BotState) (w : String),
      cfg.skipAlreadyApplied = true → "" ∈ s.appliedVacancies →
      (applyToVacancy cfg env (w ++ "/") retArg s).1 = .skipped) ∧
    (∀ s : BotState, "" ∈ (saveAppliedVacancy "" s).appliedVacancies) := by
  have hspec : ∀ url : String, vacancyId url = specListingIdentifier url := by
    intro url
    unfold vacancyId specListingIdentifier stripQuerySuffix lastPathSegment
    rw [pySplit_headD, pySplit_getLastD]
  have hslash : ∀ w : String, vacancyId (w ++ "/") = "" := by
    intro w
    obtain ⟨wd⟩ := w
    rw [hspec]
    unfold specListingIdentifier lastPathSegment stripQuerySuffix
    have hdata : (String.mk wd ++ "/").data = wd ++ ['/'] := rfl
    rw [hdata, List.reverse_append]
    simp [List.takeWhile_cons]
  refine ⟨hspec, hslash, ?_, ?_⟩
  · intro cfg env retArg s w hskip hmem
    rw [apply_skip_branch cfg env (w ++ "/") retArg s hskip (by rw [hslash w]; exact hmem)]
  · intro s
    exact (mem_saveAppliedVacancy "" s).1

/-- Witness for C9 at concrete inputs. -/
theorem vacancy_identifier_matches_spec_witness :
    vacancyId "https://hh.ru/vacancy/123?from=search"
      = specListingIdentifier "https://hh.ru/vacancy/123?from=search" ∧
    vacancyId ("https://hh.ru/vacancy/123" ++ "/") = "" ∧
    (applyToVacancy exCfg exHappyEnv ("https://hh.ru/vacancy/123" ++ "/") (some "S")
        { exState with appliedVacancies := [""] }).1 = .skipped :=
  ⟨vacancy_identifier_matches_spec.1 "https://hh.ru/vacancy/123?from=search",
   vacancy_identifier_matches_spec.2.1 "https://hh.ru/vacancy/123",
   vacancy_identifier_matches_spec.2.2.1 exCfg exHappyEnv (some "S")
     { exState with appliedVacancies := [""] } "https://hh.ru/vacancy/123"
     rfl (by decide)⟩

end HH
